import Mathlib

/-!
Verification of the plugin registry / dispatch core of Teloxide-Plugins
(`src/registry.rs` and the validation step of
`teloxide-plugins-macros/src/lib.rs`), as a shallow embedding.

Modelling choices, all taken from the source:

* `PluginMeta` mirrors the Rust struct of the same name; the `callback`
  field (a function pointer in Rust) is modelled by an identifier (`Nat`),
  since dispatch only ever *invokes* it and pointer identity is all that
  matters for "which handler ran".
* The two registration-phase statics `PLUGIN_REGISTRY` (a `Vec`) and
  `COMMAND_MAP` (a `HashMap<String, &PluginMeta>`) are gathered into an
  explicit `RegistryState`.  The hash map is modelled by an association
  list with unique keys (`orInsert` inserts only when the key is absent,
  exactly like `map.entry(key).or_insert(plugin)`), looked up by
  `assocGet`, which is observationally `HashMap::get`.
* `REGEX_CACHE` (a `HashMap<&str, Regex>`) is an association list from
  pattern strings to compiled matchers, threaded through dispatch.
* The external `regex` crate is abstracted by a parameter
  `compile : String → Option Matcher`: `compile pat = some m` models
  `Regex::new(pat) = Ok(r)` with `m t = r.is_match(t)` (match anywhere in
  `t`), and `compile pat = none` models a compile error.  A concrete
  instance `demoCompile` (literal substring patterns, the two malformed
  patterns "(" and "(?!)" rejected, as the real crate rejects them —
  the crate supports no look-around) is used to evaluate the theorems on
  closed inputs.
* A Rust panic (an `unwrap` on an `Err`) is modelled by `none` in the
  `Option` result of `get_or_compile_regex`, `scan_plugins` and
  `dispatch`; `some (invoked, cache)` models normal return `Ok(())`,
  recording the list of handlers invoked (in order) and the final cache.
-/

/-- Mirror of `struct PluginMeta` from `src/registry.rs`; `callback` is the
handler's identity. -/
structure PluginMeta where
  name : String
  commands : List String
  prefixes : List String
  regex : Option String
  callback_filter : Option String
  callback : Nat
deriving DecidableEq

/-- A compiled regex, abstracted to its `is_match` function. -/
abbrev Matcher : Type := String → Bool

/-- The `REGEX_CACHE` static: pattern string to compiled matcher. -/
abbrev RegexCache : Type := List (String × Matcher)

/-- `HashMap::get` on the association-list model of a hash map. -/
def assocGet {α : Type} : List (String × α) → String → Option α
  | [], _ => none
  | (k1, v) :: rest, k => if k1 = k then some v else assocGet rest k

/-- `map.entry(key).or_insert(plugin)`: insert only when the key is absent. -/
def orInsert (m : List (String × PluginMeta)) (k : String) (p : PluginMeta) :
    List (String × PluginMeta) :=
  match assocGet m k with
  | some _ => m
  | none => m ++ [(k, p)]

/-- The two registration statics of `src/registry.rs`: `PLUGIN_REGISTRY`
(the ordered `Vec` of registered descriptors) and `COMMAND_MAP`. -/
structure RegistryState where
  registry : List PluginMeta
  command_map : List (String × PluginMeta)
deriving DecidableEq

/-- Both statics start empty (`Lazy::new(|| ... ::new())`). -/
def emptyState : RegistryState := { registry := [], command_map := [] }

/-- Mirror of `register_plugin` (`src/registry.rs` lines 75–90): push onto
the registry; when both `prefixes` and `commands` are non-empty, insert
every `prefix+command` key with `or_insert`. -/
def register_plugin (st : RegistryState) (p : PluginMeta) : RegistryState :=
  { registry := st.registry ++ [p]
    command_map :=
      if !p.prefixes.isEmpty && !p.commands.isEmpty then
        p.prefixes.foldl
          (fun m a => p.commands.foldl (fun m1 c => orInsert m1 (a ++ c) p) m)
          st.command_map
      else st.command_map }

/-- A sequence of `register_plugin` calls starting from the empty statics. -/
def registerAll (ps : List PluginMeta) : RegistryState :=
  ps.foldl register_plugin emptyState

/-- Mirror of `find_command_plugin` (`src/registry.rs` lines 30–33):
`COMMAND_MAP.get(text)`. -/
def find_command_plugin (st : RegistryState) (text : String) : Option PluginMeta :=
  assocGet st.command_map text

/-- Mirror of `get_or_compile_regex` (`src/registry.rs` lines 92–106).
On a cache hit return the cached matcher.  Otherwise
`Regex::new(pattern).unwrap_or_else(|_| Regex::new("(?!)").unwrap())`:
compile the pattern; on failure compile the fallback pattern `"(?!)"`,
and when that also fails the inner `unwrap` panics (result `none`).
The obtained matcher is stored in the cache under `pattern`. -/
def get_or_compile_regex (compile : String → Option Matcher)
    (cache : RegexCache) (pattern : String) : Option (Matcher × RegexCache) :=
  match assocGet cache pattern with
  | some r => some (r, cache)
  | none =>
    match compile pattern with
    | some r => some (r, (pattern, r) :: cache)
    | none =>
      match compile "(?!)" with
      | some r => some (r, (pattern, r) :: cache)
      | none => none

/-- The regex arm of one iteration of the dispatch loop
(`src/registry.rs` lines 52–59): when the event has text and the plugin
declares a regex, resolve it through the cache and test `is_match`;
`some (some p, _)` means the handler is invoked, `some (none, _)` means
fall through to the callback arm, `none` means panic. -/
def scan_step (compile : String → Option Matcher) (text : Option String)
    (p : PluginMeta) (cache : RegexCache) :
    Option (Option PluginMeta × RegexCache) :=
  match text, p.regex with
  | some t, some re =>
    match get_or_compile_regex compile cache re with
    | none => none
    | some (m, cache1) => some (if m t then some p else none, cache1)
  | some _, none => some (none, cache)
  | none, _ => some (none, cache)

/-- The fallback loop of `dispatch` (`src/registry.rs` lines 51–70) over a
snapshot of `PLUGIN_REGISTRY`: for each plugin, the regex arm
(`scan_step`) and then the callback arm (`cb == filter`, exact string
equality); the first match is invoked and the loop returns. -/
def scan_plugins (compile : String → Option Matcher)
    (text cb_data : Option String) :
    List PluginMeta → RegexCache → Option (List PluginMeta × RegexCache)
  | [], cache => some ([], cache)
  | p :: rest, cache =>
    match scan_step compile text p cache with
    | none => none
    | some (some q, cache1) => some ([q], cache1)
    | some (none, cache1) =>
      match cb_data, p.callback_filter with
      | some cb, some filter =>
        if cb = filter then some ([p], cache1)
        else scan_plugins compile text cb_data rest cache1
      | some _, none => scan_plugins compile text cb_data rest cache1
      | none, _ => scan_plugins compile text cb_data rest cache1

/-- Mirror of `dispatch` (`src/registry.rs` lines 35–73).  The event is its
two optional payloads (`ctx.message.text()` and `ctx.callback_query.data`).
Fast path: on a `find_command_plugin` hit invoke that handler and return
`Ok(())` at once; otherwise run the fallback scan. -/
def dispatch (compile : String → Option Matcher) (st : RegistryState)
    (cache : RegexCache) (text cb_data : Option String) :
    Option (List PluginMeta × RegexCache) :=
  match text with
  | some t =>
    match find_command_plugin st t with
    | some p => some ([p], cache)
    | none => scan_plugins compile text cb_data st.registry cache
  | none => scan_plugins compile text cb_data st.registry cache

/-- Mirror of `determine_handler_type`
(`teloxide-plugins-macros/src/lib.rs` lines 117–142): classify the
descriptor's trigger fields, rejecting both-populated and none-populated. -/
def determine_handler_type (commands prefixes : List String)
    (regex callback_filter : Option String) : Except String Bool :=
  let has_message_triggers :=
    !commands.isEmpty || !prefixes.isEmpty || regex.isSome
  let has_callback_triggers := callback_filter.isSome
  match has_message_triggers, has_callback_triggers with
  | true, true =>
    Except.error "plugin cannot handle both message triggers (commands/prefixes/regex) and callback triggers simultaneously"
  | true, false => Except.ok false
  | false, true => Except.ok true
  | false, false =>
    Except.error "plugin must specify at least one trigger: commands, prefixes, regex, or callback"

/-- Mirror of the `TeloxidePlugin` attribute expansion combined with the
`ctor` it generates (`teloxide-plugins-macros/src/lib.rs` lines 160–221):
when `determine_handler_type` fails, the expansion emits only the compile
error — no static and no ctor are generated, so `register_plugin` is never
called and the statics are unchanged; on success the generated ctor calls
`register_plugin`.  The first component is the reported error, if any. -/
def TeloxidePlugin (st : RegistryState) (p : PluginMeta) :
    Option String × RegistryState :=
  match determine_handler_type p.commands p.prefixes p.regex p.callback_filter with
  | Except.error e => (some e, st)
  | Except.ok _ => (none, register_plugin st p)

/-! ### A concrete regex engine and concrete descriptors, for evaluation -/

/-- `isPrefixChars needle hay`: `needle` is a prefix of `hay`. -/
def isPrefixChars : List Char → List Char → Bool
  | [], _ => true
  | _ :: _, [] => false
  | c :: cs, d :: ds => c = d && isPrefixChars cs ds

/-- `containsSub needle hay`: `needle` occurs contiguously in `hay`. -/
def containsSub : List Char → List Char → Bool
  | needle, [] => needle.isEmpty
  | needle, c :: rest => isPrefixChars needle (c :: rest) || containsSub needle rest

/-- A concrete instance of the regex-engine parameter: literal patterns
match as substrings (anywhere in the text, like `Regex::is_match`), and the
malformed pattern "(" and the look-around pattern "(?!)" fail to compile,
as they do in the `regex` crate. -/
def demoCompile : String → Option Matcher :=
  fun pat =>
    if pat = "(" then none
    else if pat = "(?!)" then none
    else some (fun t => containsSub pat.toList t.toList)

/-- The `/ping` descriptor of `examples/plugs/ping.rs`. -/
def pingMeta : PluginMeta :=
  { name := "ping", commands := ["ping", "p"], prefixes := ["/", "!"],
    regex := none, callback_filter := none, callback := 1 }

/-- The regex descriptor of `examples/plugs/hello_regex.rs`, with a literal
pattern. -/
def helloMeta : PluginMeta :=
  { name := "hello", commands := [], prefixes := [],
    regex := some "hello", callback_filter := none, callback := 2 }

/-- The callback descriptor of `examples/plugs/callback.rs`. -/
def confirmMeta : PluginMeta :=
  { name := "confirm_cb", commands := [], prefixes := [],
    regex := none, callback_filter := some "confirm", callback := 3 }

/-- A descriptor declaring the malformed pattern "(". -/
def badMeta : PluginMeta :=
  { name := "bad", commands := [], prefixes := [],
    regex := some "(", callback_filter := none, callback := 4 }

/-- A regex descriptor whose pattern matches nothing of interest. -/
def noiseMeta : PluginMeta :=
  { name := "noise", commands := [], prefixes := [],
    regex := some "zzz", callback_filter := none, callback := 5 }

/-- A regex descriptor whose pattern matches inside "/ping". -/
def pregexMeta : PluginMeta :=
  { name := "pregex", commands := [], prefixes := [],
    regex := some "p", callback_filter := none, callback := 6 }

/-- A descriptor colliding with `pingMeta` on the key "/ping". -/
def pingCloneMeta : PluginMeta :=
  { name := "ping2", commands := ["ping"], prefixes := ["/"],
    regex := some "pong", callback_filter := none, callback := 7 }

/-! ### Lemmas about the registration phase -/

/-- A `foldl` keeps any property each step keeps. -/
theorem foldl_preserves {α β : Type} (P : β → Prop) (f : β → α → β)
    (l : List α) :
    ∀ (b : β), (∀ a ∈ l, ∀ b1, P b1 → P (f b1 a)) → P b → P (l.foldl f b) := by
  induction l with
  | nil => intro b _ hb; exact hb
  | cons a l ih =>
    intro b hf hb
    exact ih (f b a) (fun x hx b1 h1 => hf x (List.mem_cons_of_mem a hx) b1 h1)
      (hf a (List.mem_cons_self a l) b hb)

/-- A present key still resolves to its value after appending entries. -/
theorem assocGet_append_some {α : Type} {m : List (String × α)} {k : String}
    {v : α} (l : List (String × α)) (h : assocGet m k = some v) :
    assocGet (m ++ l) k = some v := by
  induction m with
  | nil => simp [assocGet] at h
  | cons hd rest ih =>
    obtain ⟨k1, v1⟩ := hd
    by_cases hk : k1 = k
    · simp only [assocGet, if_pos hk, List.cons_append] at h ⊢
      exact h
    · simp only [assocGet, if_neg hk, List.cons_append] at h ⊢
      exact ih h

/-- Looking past entries whose keys all miss. -/
theorem assocGet_append_none {α : Type} {m : List (String × α)} {k : String}
    (l : List (String × α)) (h : assocGet m k = none) :
    assocGet (m ++ l) k = assocGet l k := by
  induction m with
  | nil => simp
  | cons hd rest ih =>
    obtain ⟨k1, v1⟩ := hd
    by_cases hk : k1 = k
    · simp only [assocGet, if_pos hk] at h
      exact absurd h (by simp)
    · simp only [assocGet, if_neg hk, List.cons_append] at h ⊢
      exact ih h

/-- `or_insert` never overwrites a present key. -/
theorem orInsert_preserves_some {m : List (String × PluginMeta)} {k : String}
    {v : PluginMeta} (k1 : String) (p1 : PluginMeta)
    (h : assocGet m k = some v) :
    assocGet (orInsert m k1 p1) k = some v := by
  unfold orInsert
  cases hg : assocGet m k1 with
  | some _ => exact h
  | none => exact assocGet_append_some _ h

/-- `or_insert` with a different key keeps an absent key absent. -/
theorem orInsert_get_none {m : List (String × PluginMeta)} {k1 t : String}
    {p1 : PluginMeta} (hne : k1 ≠ t) (h : assocGet m t = none) :
    assocGet (orInsert m k1 p1) t = none := by
  unfold orInsert
  cases hg : assocGet m k1 with
  | some _ => exact h
  | none =>
    rw [assocGet_append_none _ h]
    simp [assocGet, hne]

/-- `register_plugin` never rebinds a key already in `COMMAND_MAP`. -/
theorem register_preserves_lookup (st : RegistryState) (q : PluginMeta)
    {k : String} {v : PluginMeta} (h : find_command_plugin st k = some v) :
    find_command_plugin (register_plugin st q) k = some v := by
  unfold find_command_plugin register_plugin
  unfold find_command_plugin at h
  dsimp only
  split
  · refine foldl_preserves (fun m => assocGet m k = some v) _ _ _ ?_ h
    intro a _ m1 h1
    refine foldl_preserves (fun m => assocGet m k = some v) _ _ _ ?_ h1
    intro c _ m2 h2
    exact orInsert_preserves_some _ _ h2
  · exact h

/-- `register_plugin` adds no key other than the plugin's own
prefix+command combinations. -/
theorem register_get_none (st : RegistryState) (p : PluginMeta) {t : String}
    (hp : ∀ a ∈ p.prefixes, ∀ c ∈ p.commands, a ++ c ≠ t)
    (h : assocGet st.command_map t = none) :
    assocGet (register_plugin st p).command_map t = none := by
  unfold register_plugin
  dsimp only
  split
  · refine foldl_preserves (fun m => assocGet m t = none) _ _ _ ?_ h
    intro a ha m1 h1
    refine foldl_preserves (fun m => assocGet m t = none) _ _ _ ?_ h1
    intro c hc m2 h2
    exact orInsert_get_none (hp a ha c hc) h2
  · exact h

/-- A text equal to no registered prefix+command key misses `COMMAND_MAP`. -/
theorem registerAll_get_none (ps : List PluginMeta) (t : String)
    (h : ∀ p ∈ ps, ∀ a ∈ p.prefixes, ∀ c ∈ p.commands, a ++ c ≠ t) :
    find_command_plugin (registerAll ps) t = none := by
  unfold registerAll find_command_plugin
  refine foldl_preserves
    (fun (st : RegistryState) => assocGet st.command_map t = none)
    register_plugin ps emptyState ?_ rfl
  intro p hp st1 h1
  exact register_get_none st1 p (h p hp) h1

/-- `register_plugin` keeps every `COMMAND_MAP` value inside the registry. -/
theorem register_mvir (st : RegistryState) (p : PluginMeta)
    (h : ∀ kv ∈ st.command_map, kv.2 ∈ st.registry) :
    ∀ kv ∈ (register_plugin st p).command_map,
      kv.2 ∈ (register_plugin st p).registry := by
  unfold register_plugin
  dsimp only
  split
  · refine foldl_preserves
      (fun (m : List (String × PluginMeta)) => ∀ kv ∈ m, kv.2 ∈ st.registry ++ [p])
      _ _ _ ?_ ?_
    · intro a _ m1 h1
      refine foldl_preserves
        (fun (m : List (String × PluginMeta)) => ∀ kv ∈ m, kv.2 ∈ st.registry ++ [p])
        _ _ _ ?_ h1
      intro c _ m2 h2 kv hkv
      unfold orInsert at hkv
      cases hg : assocGet m2 (a ++ c) with
      | some _ =>
        rw [hg] at hkv
        exact h2 kv hkv
      | none =>
        rw [hg] at hkv
        rcases List.mem_append.mp hkv with h3 | h3
        · exact h2 kv h3
        · rw [List.mem_singleton.mp h3]
          exact List.mem_append_right _ (List.mem_singleton_self p)
    · intro kv hkv
      exact List.mem_append_left _ (h kv hkv)
  · intro kv hkv
    exact List.mem_append_left _ (h kv hkv)

/-- Every `COMMAND_MAP` value of a registration sequence is registered. -/
theorem registerAll_mvir (ps : List PluginMeta) :
    ∀ kv ∈ (registerAll ps).command_map, kv.2 ∈ (registerAll ps).registry := by
  unfold registerAll
  refine foldl_preserves
    (fun (st : RegistryState) => ∀ kv ∈ st.command_map, kv.2 ∈ st.registry)
    register_plugin ps emptyState ?_ ?_
  · intro p _ st1 h1
    exact register_mvir st1 p h1
  · intro kv hkv
    simp [emptyState] at hkv

/-! ### Lemmas about the regex cache and the fallback scan -/

/-- Every cache entry is the compilation of its own pattern: true of the
real `REGEX_CACHE` whenever no malformed pattern has been requested. -/
def cacheCoherent (compile : String → Option Matcher) (cache : RegexCache) :
    Prop :=
  ∀ pat m, assocGet cache pat = some m → compile pat = some m

/-- The empty cache is coherent. -/
theorem cacheCoherent_nil (compile : String → Option Matcher) :
    cacheCoherent compile [] := by
  intro pat m h
  simp [assocGet] at h

/-- On a compilable pattern, `get_or_compile_regex` returns exactly the
compiled matcher and keeps the cache coherent. -/
theorem get_or_compile_of_compile_some {compile : String → Option Matcher}
    {cache : RegexCache} {pattern : String} {m : Matcher}
    (hcoh : cacheCoherent compile cache) (hc : compile pattern = some m) :
    ∃ cache1, get_or_compile_regex compile cache pattern = some (m, cache1) ∧
      cacheCoherent compile cache1 := by
  cases hg : assocGet cache pattern with
  | some r =>
    have hr := hcoh pattern r hg
    rw [hr] at hc
    injection hc with hc
    subst hc
    refine ⟨cache, ?_, hcoh⟩
    unfold get_or_compile_regex
    rw [hg]
  | none =>
    refine ⟨(pattern, m) :: cache, ?_, ?_⟩
    · unfold get_or_compile_regex
      rw [hg, hc]
    · intro pat m1 h1
      simp only [assocGet] at h1
      by_cases hp : pattern = pat
      · rw [if_pos hp] at h1
        injection h1 with h1
        subst h1
        rw [← hp]
        exact hc
      · rw [if_neg hp] at h1
        exact hcoh pat m1 h1

/-- On a cache miss for a pattern that fails to compile, when the fallback
pattern `"(?!)"` fails too, the inner `unwrap` panics. -/
theorem get_or_compile_panics {compile : String → Option Matcher}
    {cache : RegexCache} {pattern : String}
    (hg : assocGet cache pattern = none) (hc : compile pattern = none)
    (hs : compile "(?!)" = none) :
    get_or_compile_regex compile cache pattern = none := by
  unfold get_or_compile_regex
  rw [hg, hc, hs]

/-- The plugin's triggers do not fire on this event: its regex (if any)
compiles but does not match the text (if any), and its callback filter
(if any) differs from the callback payload (if any). -/
def plugin_misses (compile : String → Option Matcher)
    (text cb_data : Option String) (p : PluginMeta) : Prop :=
  (∀ t re, text = some t → p.regex = some re →
    ∃ m, compile re = some m ∧ m t = false) ∧
  (∀ cb f, cb_data = some cb → p.callback_filter = some f → cb ≠ f)

/-- Scanning past a plugin whose triggers all miss. -/
theorem scan_skip {compile : String → Option Matcher}
    {text cb_data : Option String} {p : PluginMeta} (rest : List PluginMeta)
    {cache : RegexCache} (hmiss : plugin_misses compile text cb_data p)
    (hcoh : cacheCoherent compile cache) :
    ∃ cache1, scan_plugins compile text cb_data (p :: rest) cache =
        scan_plugins compile text cb_data rest cache1 ∧
      cacheCoherent compile cache1 := by
  obtain ⟨h1, h2⟩ := hmiss
  have hstep : ∃ cache1, scan_step compile text p cache = some (none, cache1) ∧
      cacheCoherent compile cache1 := by
    cases htext : text with
    | none => exact ⟨cache, rfl, hcoh⟩
    | some t =>
      cases hre : p.regex with
      | none =>
        refine ⟨cache, ?_, hcoh⟩
        unfold scan_step
        rw [hre]
      | some re =>
        obtain ⟨m, hcm, hmt⟩ := h1 t re htext hre
        obtain ⟨cache1, hgoc, hcoh1⟩ := get_or_compile_of_compile_some hcoh hcm
        refine ⟨cache1, ?_, hcoh1⟩
        simp [scan_step, hre, hgoc, hmt]
  obtain ⟨cache1, hstep1, hcoh1⟩ := hstep
  refine ⟨cache1, ?_, hcoh1⟩
  cases hcb : cb_data with
  | none => simp only [scan_plugins, hstep1]
  | some cb =>
    cases hcf : p.callback_filter with
    | none => simp only [scan_plugins, hstep1, hcf]
    | some f =>
      have hne := h2 cb f hcb hcf
      simp only [scan_plugins, hstep1, hcf, if_neg hne]

/-- When the head plugin's regex compiles and matches the text, the scan
invokes its handler and stops. -/
theorem scan_head_match {compile : String → Option Matcher} {t : String}
    {cb_data : Option String} {p : PluginMeta} {re : String} {m : Matcher}
    (rest : List PluginMeta) {cache : RegexCache}
    (hre : p.regex = some re) (hcm : compile re = some m) (hmt : m t = true)
    (hcoh : cacheCoherent compile cache) :
    ∃ cache1, scan_plugins compile (some t) cb_data (p :: rest) cache =
      some ([p], cache1) := by
  obtain ⟨cache1, hgoc, _⟩ := get_or_compile_of_compile_some hcoh hcm
  refine ⟨cache1, ?_⟩
  simp [scan_plugins, scan_step, hre, hgoc, hmt]

/-- The first plugin (in scan order) whose regex matches is the one
invoked; the plugins before it are scanned past, the ones after it are
never reached. -/
theorem scan_first_match {compile : String → Option Matcher} {t : String}
    {cb_data : Option String} {p : PluginMeta} {re : String} {m : Matcher}
    (hre : p.regex = some re) (hcm : compile re = some m) (hmt : m t = true) :
    ∀ (front rest : List PluginMeta) (cache : RegexCache),
      (∀ q ∈ front, plugin_misses compile (some t) cb_data q) →
      cacheCoherent compile cache →
      ∃ cache1, scan_plugins compile (some t) cb_data (front ++ p :: rest)
        cache = some ([p], cache1) := by
  intro front
  induction front with
  | nil =>
    intro rest cache _ hcoh
    exact scan_head_match rest hre hcm hmt hcoh
  | cons q front1 ih =>
    intro rest cache hmiss hcoh
    obtain ⟨cache1, heq, hcoh1⟩ :=
      scan_skip (front1 ++ p :: rest) (hmiss q (List.mem_cons_self q front1))
        hcoh
    obtain ⟨cache2, heq2⟩ :=
      ih rest cache1 (fun x hx => hmiss x (List.mem_cons_of_mem q hx)) hcoh1
    exact ⟨cache2, heq.trans heq2⟩

/-- A scan over plugins that all miss invokes nothing and succeeds. -/
theorem scan_all_miss {compile : String → Option Matcher}
    {text cb_data : Option String} :
    ∀ (l : List PluginMeta) (cache : RegexCache),
      (∀ q ∈ l, plugin_misses compile text cb_data q) →
      cacheCoherent compile cache →
      ∃ cache1, scan_plugins compile text cb_data l cache =
          some ([], cache1) ∧ cacheCoherent compile cache1 := by
  intro l
  induction l with
  | nil => intro cache _ hcoh; exact ⟨cache, rfl, hcoh⟩
  | cons p rest ih =>
    intro cache hmiss hcoh
    obtain ⟨cache1, heq, hcoh1⟩ :=
      scan_skip rest (hmiss p (List.mem_cons_self p rest)) hcoh
    obtain ⟨cache2, heq2, hcoh2⟩ :=
      ih cache1 (fun q hq => hmiss q (List.mem_cons_of_mem p hq)) hcoh1
    exact ⟨cache2, heq.trans heq2, hcoh2⟩

/-- On a callback event, the first plugin whose filter equals the payload
is invoked; the cache is untouched (no regex is resolved when the event
has no text). -/
theorem scan_callback_hit {compile : String → Option Matcher} {c : String}
    {p : PluginMeta} (hcf : p.callback_filter = some c) :
    ∀ (front rest : List PluginMeta) (cache : RegexCache),
      (∀ q ∈ front, q.callback_filter ≠ some c) →
      scan_plugins compile none (some c) (front ++ p :: rest) cache =
        some ([p], cache) := by
  intro front
  induction front with
  | nil =>
    intro rest cache _
    simp [scan_plugins, scan_step, hcf]
  | cons q front1 ih =>
    intro rest cache hmiss
    have hq := hmiss q (List.mem_cons_self q front1)
    have htail := ih rest cache (fun x hx => hmiss x (List.mem_cons_of_mem q hx))
    cases hqf : q.callback_filter with
    | none =>
      simp only [List.cons_append, scan_plugins, scan_step, hqf]
      exact htail
    | some f =>
      have hne : c ≠ f := fun h => hq (by rw [hqf, h])
      simp only [List.cons_append, scan_plugins, scan_step, hqf, if_neg hne]
      exact htail

/-- On a callback event whose payload equals no registered filter, the
scan invokes nothing. -/
theorem scan_callback_none {compile : String → Option Matcher} {c : String} :
    ∀ (l : List PluginMeta) (cache : RegexCache),
      (∀ q ∈ l, q.callback_filter ≠ some c) →
      scan_plugins compile none (some c) l cache = some ([], cache) := by
  intro l
  induction l with
  | nil => intro cache _; rfl
  | cons q rest ih =>
    intro cache hmiss
    have hq := hmiss q (List.mem_cons_self q rest)
    have htail := ih cache (fun x hx => hmiss x (List.mem_cons_of_mem q hx))
    cases hqf : q.callback_filter with
    | none =>
      simp only [scan_plugins, scan_step, hqf]
      exact htail
    | some f =>
      have hne : c ≠ f := fun h => hq (by rw [hqf, h])
      simp only [scan_plugins, scan_step, hqf, if_neg hne]
      exact htail

/-- A completed scan invokes at most one handler. -/
theorem scan_at_most_one {compile : String → Option Matcher} :
    ∀ (l : List PluginMeta) (text cb_data : Option String)
      (cache : RegexCache) (invoked : List PluginMeta) (cache1 : RegexCache),
      scan_plugins compile text cb_data l cache = some (invoked, cache1) →
      invoked.length ≤ 1 := by
  intro l
  induction l with
  | nil =>
    intro text cb_data cache invoked cache1 h
    simp only [scan_plugins, Option.some.injEq, Prod.mk.injEq] at h
    rw [← h.1]
    simp
  | cons p rest ih =>
    intro text cb_data cache invoked cache1 h
    simp only [scan_plugins] at h
    split at h
    · exact Option.noConfusion h
    · injection h with h2
      injection h2 with ha hb
      rw [← ha]
      simp
    · split at h
      · split at h
        · injection h with h2
          injection h2 with ha hb
          rw [← ha]
          simp
        · exact ih _ _ _ _ _ h
      · exact ih _ _ _ _ _ h
      · exact ih _ _ _ _ _ h

/-! ### The claims -/

/-- C1: for every dispatched event whose text exactly equals a key
registered in the Command Index, `dispatch` invokes the handler of the
descriptor stored under that key and no other, and returns success
immediately (the registry is never scanned and the cache is untouched),
whatever other descriptors — in particular regex-triggered ones whose
patterns match the same text — the registry holds. -/
theorem C1_command_fast_path (compile : String → Option Matcher)
    (st : RegistryState) (cache : RegexCache) (t : String)
    (cb_data : Option String) (p : PluginMeta)
    (h : find_command_plugin st t = some p) :
    dispatch compile st cache (some t) cb_data = some ([p], cache) := by
  simp only [dispatch, h]

/-- C1 witness: `pregexMeta` (regex `"p"`, which matches inside "/ping")
is registered before `pingMeta`, yet dispatching the text "/ping" invokes
only `pingMeta`, through the exact-command fast path. -/
theorem C1_command_fast_path_witness :
    dispatch demoCompile (registerAll [pregexMeta, pingMeta]) []
      (some "/ping") none = some ([pingMeta], []) :=
  C1_command_fast_path demoCompile (registerAll [pregexMeta, pingMeta]) []
    "/ping" none pingMeta (by rfl)

/-- C2, as the code actually behaves (code bug): when a pattern misses the
cache and fails to compile, `get_or_compile_regex` does not store a
never-matching sentinel — it calls `Regex::new("(?!)").unwrap()`, and the
`regex` crate rejects `"(?!)"` (look-around is unsupported), so the
`unwrap` panics and `dispatch` aborts instead of returning. -/
theorem C2_malformed_regex_panics (compile : String → Option Matcher)
    (st : RegistryState) (t : String) (cb_data : Option String)
    (p : PluginMeta) (rest : List PluginMeta) (re : String)
    (hcmd : find_command_plugin st t = none)
    (hreg : st.registry = p :: rest)
    (hre : p.regex = some re)
    (hc : compile re = none) (hs : compile "(?!)" = none) :
    dispatch compile st [] (some t) cb_data = none := by
  have hpanic : get_or_compile_regex compile [] re = none :=
    get_or_compile_panics rfl hc hs
  simp only [dispatch, hcmd, hreg]
  simp [scan_plugins, scan_step, hre, hpanic]

/-- C2 witness: a registry holding only `badMeta` (pattern "(", malformed)
panics while dispatching the text "hi". -/
theorem C2_malformed_regex_panics_witness :
    dispatch demoCompile (registerAll [badMeta]) [] (some "hi") none =
      none :=
  C2_malformed_regex_panics demoCompile (registerAll [badMeta]) "hi" none
    badMeta [] "(" rfl rfl rfl rfl rfl

/-- C3: for a text event with no exact Command Index match, `dispatch`
scans the registry in registration order and invokes the handler of the
first descriptor whose regex matches the text, stopping there: later
descriptors are not invoked, whether or not their patterns match. -/
theorem C3_first_regex_match_wins (compile : String → Option Matcher)
    (st : RegistryState) (cache : RegexCache) (t : String)
    (cb_data : Option String) (front rest : List PluginMeta)
    (p : PluginMeta) (re : String) (m : Matcher)
    (hreg : st.registry = front ++ p :: rest)
    (hcmd : find_command_plugin st t = none)
    (hre : p.regex = some re) (hcm : compile re = some m) (hmt : m t = true)
    (hmiss : ∀ q ∈ front, plugin_misses compile (some t) cb_data q)
    (hcoh : cacheCoherent compile cache) :
    ∃ cache1, dispatch compile st cache (some t) cb_data =
      some ([p], cache1) := by
  obtain ⟨cache1, heq⟩ := scan_first_match hre hcm hmt front rest cache hmiss hcoh
  refine ⟨cache1, ?_⟩
  simp only [dispatch, hcmd, hreg]
  exact heq

/-- C3 witness: with `noiseMeta` (pattern "zzz") registered before
`helloMeta` (pattern "hello"), dispatching "say hello" invokes only
`helloMeta`, found by the fallback scan. -/
theorem C3_first_regex_match_wins_witness :
    Option.map Prod.fst (dispatch demoCompile
      (registerAll [noiseMeta, helloMeta]) [] (some "say hello") none) =
      some [helloMeta] := by
  obtain ⟨cache1, heq⟩ :=
    C3_first_regex_match_wins demoCompile (registerAll [noiseMeta, helloMeta])
      [] "say hello" none [noiseMeta] [] helloMeta "hello"
      (fun t => containsSub "hello".toList t.toList)
      rfl rfl rfl rfl rfl
      (by
        intro q hq
        rw [List.mem_singleton.mp hq]
        refine ⟨?_, ?_⟩
        · intro t1 re1 ht hre
          have ht2 : (some "say hello" : Option String) = some t1 := ht
          have hre2 : (some "zzz" : Option String) = some re1 := hre
          injection ht2 with ht2
          injection hre2 with hre2
          rw [← ht2, ← hre2]
          exact ⟨fun s => containsSub "zzz".toList s.toList, rfl, rfl⟩
        · intro cb f hcb _
          exact Option.noConfusion hcb)
      (cacheCoherent_nil demoCompile)
  rw [heq]
  rfl

/-- C4: when a second descriptor collides with an already-registered
`prefix+command` key, the key keeps resolving to the first-registered
descriptor — the second registration does not overwrite it — while the
second descriptor is still appended to the registry, so its regex trigger
still participates in the fallback scan. -/
theorem C4_first_registration_keeps_key (st : RegistryState)
    (q : PluginMeta) (k : String) (p : PluginMeta)
    (h : find_command_plugin st k = some p) :
    find_command_plugin (register_plugin st q) k = some p ∧
      (register_plugin st q).registry = st.registry ++ [q] :=
  ⟨register_preserves_lookup st q h, rfl⟩

/-- C4 witness: `pingCloneMeta` also maps "/"++"ping"; after registering
it over `pingMeta`'s registry, "/ping" still resolves to `pingMeta`, and
`pingCloneMeta` is appended to the registry. -/
theorem C4_first_registration_keeps_key_witness :
    find_command_plugin (register_plugin (registerAll [pingMeta])
      pingCloneMeta) "/ping" = some pingMeta ∧
      (register_plugin (registerAll [pingMeta]) pingCloneMeta).registry =
        (registerAll [pingMeta]).registry ++ [pingCloneMeta] :=
  C4_first_registration_keeps_key (registerAll [pingMeta]) pingCloneMeta
    "/ping" pingMeta (by rfl)

/-- A descriptor declaring both a message trigger and a callback filter. -/
def ambiguousMeta : PluginMeta :=
  { name := "amb", commands := ["x"], prefixes := ["/"],
    regex := none, callback_filter := some "y", callback := 8 }

/-- C5: a descriptor declaration that is ambiguous — message triggers
(commands/prefixes/regex) together with a callback filter, or no trigger
at all — is rejected by the declaration pipeline: an error is reported to
the registrant and no registration happens, so the descriptor enters
neither the Registry nor the Command Index (the statics are unchanged). -/
theorem C5_ambiguous_declaration_rejected (st : RegistryState)
    (p : PluginMeta)
    (h : ((p.commands ≠ [] ∨ p.prefixes ≠ [] ∨ p.regex ≠ none) ∧
            p.callback_filter ≠ none) ∨
          (p.commands = [] ∧ p.prefixes = [] ∧ p.regex = none ∧
            p.callback_filter = none)) :
    (TeloxidePlugin st p).1.isSome = true ∧ (TeloxidePlugin st p).2 = st := by
  cases hcm : p.commands <;> cases hpf : p.prefixes <;>
    cases hrg : p.regex <;> cases hcf : p.callback_filter <;>
      simp_all [TeloxidePlugin, determine_handler_type]

/-- C5 witness: `ambiguousMeta` declares a command and a callback filter;
its declaration reports an error and leaves the statics empty. -/
theorem C5_ambiguous_declaration_rejected_witness :
    (TeloxidePlugin emptyState ambiguousMeta).1.isSome = true ∧
      (TeloxidePlugin emptyState ambiguousMeta).2 = emptyState :=
  C5_ambiguous_declaration_rejected emptyState ambiguousMeta
    (Or.inl ⟨Or.inl (by decide), by decide⟩)

/-- C6: one call to `dispatch`, on any event (including one carrying both
a text payload and a callback payload) and any registry state, invokes at
most one handler. -/
theorem C6_at_most_one_handler (compile : String → Option Matcher)
    (st : RegistryState) (cache : RegexCache) (text cb_data : Option String)
    (invoked : List PluginMeta) (cache1 : RegexCache)
    (h : dispatch compile st cache text cb_data = some (invoked, cache1)) :
    invoked.length ≤ 1 := by
  unfold dispatch at h
  split at h
  · split at h
    · injection h with h2
      injection h2 with ha hb
      rw [← ha]
      simp
    · exact scan_at_most_one _ _ _ _ _ _ h
  · exact scan_at_most_one _ _ _ _ _ _ h

/-- C6 witness: an event carrying both the text "say hello" (matching
`helloMeta`'s pattern) and the payload "confirm" (equal to `confirmMeta`'s
filter) invokes exactly one handler. -/
theorem C6_at_most_one_handler_witness :
    Option.map Prod.fst (dispatch demoCompile
      (registerAll [helloMeta, confirmMeta]) [] (some "say hello")
      (some "confirm")) = some [helloMeta] ∧
      ([helloMeta] : List PluginMeta).length ≤ 1 := by
  have h : dispatch demoCompile (registerAll [helloMeta, confirmMeta]) []
      (some "say hello") (some "confirm") =
      some ([helloMeta],
        [("hello", fun t => containsSub "hello".toList t.toList)]) := rfl
  exact ⟨by rw [h]; rfl,
    C6_at_most_one_handler demoCompile (registerAll [helloMeta, confirmMeta])
      [] (some "say hello") (some "confirm") [helloMeta] _ h⟩

/-- C7: on a callback event, a descriptor's callback filter is compared to
the payload by exact string equality: the first descriptor whose filter
equals the payload is invoked, and a payload equal to no registered filter
invokes nothing. -/
theorem C7_callback_exact_equality (compile : String → Option Matcher)
    (st : RegistryState) (cache : RegexCache) (c : String) :
    (∀ front rest p, st.registry = front ++ p :: rest →
      p.callback_filter = some c →
      (∀ q ∈ front, q.callback_filter ≠ some c) →
      dispatch compile st cache none (some c) = some ([p], cache)) ∧
    ((∀ q ∈ st.registry, q.callback_filter ≠ some c) →
      dispatch compile st cache none (some c) = some ([], cache)) := by
  constructor
  · intro front rest p hreg hcf hmiss
    have h2 : scan_plugins compile none (some c) (front ++ p :: rest) cache =
        some ([p], cache) := scan_callback_hit hcf front rest cache hmiss
    rw [← hreg] at h2
    exact h2
  · intro hmiss
    exact scan_callback_none st.registry cache hmiss

/-- C7 witness: payload "confirm" invokes `confirmMeta` (registered after
`pingMeta`), and payload "cancel", equal to no registered filter, invokes
nothing. -/
theorem C7_callback_exact_equality_witness :
    dispatch demoCompile (registerAll [pingMeta, confirmMeta]) [] none
      (some "confirm") = some ([confirmMeta], []) ∧
      dispatch demoCompile (registerAll [pingMeta, confirmMeta]) [] none
        (some "cancel") = some ([], []) :=
  ⟨(C7_callback_exact_equality demoCompile
      (registerAll [pingMeta, confirmMeta]) [] "confirm").1
      [pingMeta] [] confirmMeta rfl rfl (by decide),
    (C7_callback_exact_equality demoCompile
      (registerAll [pingMeta, confirmMeta]) [] "cancel").2 (by decide)⟩

/-- C8: an event that matches no registered trigger — in particular an
event carrying neither text nor callback payload — makes `dispatch`
return success having invoked no handler. -/
theorem C8_unmatched_event_succeeds (compile : String → Option Matcher)
    (st : RegistryState) (cache : RegexCache) (text cb_data : Option String)
    (hcmd : ∀ t, text = some t → find_command_plugin st t = none)
    (hmiss : ∀ q ∈ st.registry, plugin_misses compile text cb_data q)
    (hcoh : cacheCoherent compile cache) :
    ∃ cache1, dispatch compile st cache text cb_data = some ([], cache1) := by
  cases text with
  | none =>
    obtain ⟨cache1, heq, _⟩ := scan_all_miss st.registry cache hmiss hcoh
    exact ⟨cache1, heq⟩
  | some t =>
    obtain ⟨cache1, heq, _⟩ := scan_all_miss st.registry cache hmiss hcoh
    refine ⟨cache1, ?_⟩
    simp only [dispatch, hcmd t rfl]
    exact heq

/-- C8 witness: an event with neither payload, against a registry holding
a command plugin, a regex plugin and a callback plugin, is dispatched
successfully with no handler invoked. -/
theorem C8_unmatched_event_succeeds_witness :
    Option.map Prod.fst (dispatch demoCompile
      (registerAll [pingMeta, helloMeta, confirmMeta]) [] none none) =
      some [] := by
  obtain ⟨cache1, heq⟩ := C8_unmatched_event_succeeds demoCompile
    (registerAll [pingMeta, helloMeta, confirmMeta]) [] none none
    (fun t ht => Option.noConfusion ht)
    (fun q _ => ⟨fun t re ht _ => Option.noConfusion ht,
      fun cb f hcb _ => Option.noConfusion hcb⟩)
    (cacheCoherent_nil demoCompile)
  rw [heq]
  rfl

/-- C9: the Command Index is keyed on the whole message text: a text equal
to no registered `prefix+command` key — in particular one that merely
begins with such a key and carries extra characters, like a command
followed by arguments — never takes the fast path, and `dispatch` falls
through to the fallback scan. -/
theorem C9_lookup_keys_whole_text (compile : String → Option Matcher)
    (cache : RegexCache) (cb_data : Option String) (ps : List PluginMeta)
    (t : String)
    (h : ∀ p ∈ ps, ∀ a ∈ p.prefixes, ∀ c ∈ p.commands, a ++ c ≠ t) :
    find_command_plugin (registerAll ps) t = none ∧
      dispatch compile (registerAll ps) cache (some t) cb_data =
        scan_plugins compile (some t) cb_data (registerAll ps).registry
          cache := by
  have h1 := registerAll_get_none ps t h
  refine ⟨h1, ?_⟩
  simp only [dispatch, h1]

/-- C9 witness: with `pingMeta` registered (keys "/ping", "/p", "!ping",
"!p"), the text "/ping hello" — which merely begins with the key
"/ping" — misses the index and is routed to the fallback scan. -/
theorem C9_lookup_keys_whole_text_witness :
    find_command_plugin (registerAll [pingMeta]) "/ping hello" = none ∧
      dispatch demoCompile (registerAll [pingMeta]) []
        (some "/ping hello") none =
        scan_plugins demoCompile (some "/ping hello") none
          (registerAll [pingMeta]).registry [] :=
  C9_lookup_keys_whole_text demoCompile [] none [pingMeta] "/ping hello"
    (by decide)

/-- C10: after any sequence of `register_plugin` calls, every descriptor
stored as a value in the Command Index is an element of the Registry, and
the Registry is append-only: a further registration extends it by exactly
one element at the end, removing and reordering nothing. -/
theorem C10_index_values_registered_append_only (ps : List PluginMeta)
    (st : RegistryState) (q : PluginMeta) (k : String) (p : PluginMeta)
    (h : (k, p) ∈ (registerAll ps).command_map) :
    p ∈ (registerAll ps).registry ∧
      (register_plugin st q).registry = st.registry ++ [q] :=
  ⟨registerAll_mvir ps (k, p) h, rfl⟩

/-- C10 witness: "/ping" maps to `pingMeta`, which is in the registry, and
registering `confirmMeta` on top appends it without disturbing the
existing sequence. -/
theorem C10_index_values_registered_append_only_witness :
    pingMeta ∈ (registerAll [pingMeta]).registry ∧
      (register_plugin (registerAll [pingMeta]) confirmMeta).registry =
        (registerAll [pingMeta]).registry ++ [confirmMeta] :=
  C10_index_values_registered_append_only [pingMeta]
    (registerAll [pingMeta]) confirmMeta "/ping" pingMeta (by decide)
